import Mathlib

/-!
Shallow embedding of the CSV import engine of `src/src/ImportCsvDialog.cpp`
(sqlitebrowser). The functions below are translated from
`ImportCsvDialog::accept`, `ImportCsvDialog::checkInput` and the anonymous
namespace helper `rollback`. The transactional store (`DBBrowserDB`) and the
CSV parser are external collaborators of that file; where their behaviour
decides a property, the corresponding definition is modelled from the spec
and says so in its doc comment.
-/

/-- The backtick character, stripped from header fields (line 140). -/
def backtickC : Char := Char.ofNat 96

/-- The space character, stripped from header fields (line 141). -/
def spaceC : Char := Char.ofNat 32

/-- The double-quote character, stripped from header fields (line 142). -/
def dquoteC : Char := Char.ofNat 34

/-- The single-quote character, stripped from header fields (line 143). -/
def squoteC : Char := Char.ofNat 39

/-- The comma character, stripped from header fields (line 144). -/
def commaC : Char := Char.ofNat 44

/-- The semicolon character, stripped from header fields (line 145). -/
def semicolonC : Char := Char.ofNat 59

/-- A column of the table to create: `sqlb::Field(name, type)`; the importer
always passes the empty string for the type (lines 151, 155). -/
structure SqlbField where
  name : String
  dtype : String
deriving Repr, DecidableEq

/-- Model of `QString::replace(c, "")` for a single-character pattern:
remove every occurrence of the character. -/
def removeChar (c : Char) (s : String) : String :=
  String.mk (s.toList.filter (fun a => a != c))

/-- Header-field sanitization, lines 139-145: six successive removals, in
source order backtick, space, double quote, single quote, comma, semicolon. -/
def sanitizeHeaderField (s : String) : String :=
  removeChar semicolonC (removeChar commaC (removeChar squoteC
    (removeChar dquoteC (removeChar spaceC (removeChar backtickC s)))))

/-- The six forbidden characters of the spec (section 3), in source order. -/
def forbiddenChars : List Char :=
  [backtickC, spaceC, dquoteC, squoteC, commaC, semicolonC]

/-- Spec-side formulation of the sanitization rule, written from the spec
wording: strip (filter out) every forbidden character in one pass. Compared
against `sanitizeHeaderField`, which is translated from the source. -/
def specStripForbidden (s : String) : String :=
  String.mk (s.toList.filter (fun c => !(forbiddenChars.contains c)))

/-- Name of the column derived from header field `f` at 0-based position `i`:
the sanitized field, or `field<i+1>` when sanitization leaves it empty
(lines 147-149). -/
def headerName (i : Nat) (f : String) : String :=
  let s := sanitizeHeaderField f
  if s = "" then "field" ++ toString (i + 1) else s

/-- The loop of lines 134-152: one `SqlbField` per header cell, in order, empty
declared type. -/
def deriveHeaderFields : List String → Nat → List SqlbField
  | [], _ => []
  | f :: rest, i => ⟨headerName i f, ""⟩ :: deriveHeaderFields rest (i + 1)

/-- Field-name generation, lines 129-156: from the first CSV row when the
header checkbox is set, otherwise `field1..fieldN` for `N = csv.columns()`. -/
def deriveFields (useHeader : Bool) (firstRow : List String) (cols : Nat) : List SqlbField :=
  if useHeader then deriveHeaderFields firstRow 0
  else (List.range cols).map (fun i => ⟨"field" ++ toString (i + 1), ""⟩)

/-- Escaping done by `sqlite3_mprintf("%Q", ...)` inside the quotes: every
single-quote character is doubled. -/
def escapeQ : List Char → List Char
  | [] => []
  | c :: rest => if c = squoteC then c :: c :: escapeQ rest else c :: escapeQ rest

/-- Inverse reading of an escaped literal body: collapse doubled quotes. -/
def unescapeQ : List Char → List Char
  | [] => []
  | [c] => [c]
  | c :: c' :: rest =>
    if c = squoteC ∧ c' = squoteC then c :: unescapeQ rest
    else c :: unescapeQ (c' :: rest)

/-- Model of `sqlite3_mprintf("%Q", v)` at line 210 for the (always non-null)
UTF-8 field value: the value surrounded by single quotes with embedded single
quotes doubled. A null pointer would print `NULL`, but `toUtf8()` of a QString
never yields a null pointer, so every field becomes a quoted literal. -/
def mprintfQ (s : String) : String :=
  String.mk (squoteC :: escapeQ s.toList ++ [squoteC])

/-- The inner loop of lines 207-217: escaped values joined by commas (a comma
after every value except the last). -/
def valuesPart : List String → String
  | [] => ""
  | [f] => mprintfQ f
  | f :: rest => mprintfQ f ++ "," ++ valuesPart rest

/-- The INSERT statement built for one row, lines 204-219. -/
def buildInsertSQL (tn : String) (row : List String) : String :=
  "INSERT INTO " ++ String.singleton backtickC ++ tn ++ String.singleton backtickC
    ++ " VALUES(" ++ valuesPart row ++ ");"

/-- One browsable object of the store: type ("table", "view", ...), name, the
fields of its table description, and its rows (contents). -/
structure DBObject where
  otype : String
  name : String
  tableFields : List SqlbField
  rows : List (List String)
deriving Repr, DecidableEq

/-- The fixed warning text of lines 171-172; it contains neither column
count. -/
def mismatchMsg : String :=
  "There is already a table of that name and an import into an existing table is only possible if the number of columns match."

/-- Outcome of the existing-table scan of lines 162-184. -/
inductive ResolveDecision where
  | createNew
  | appendExisting
  | mismatchAbort (msg : String)
  | userDeclined
deriving Repr, DecidableEq

/-- True for the two decisions that let the import continue. -/
def ResolveDecision.proceeds : ResolveDecision → Bool
  | .createNew => true
  | .appendExisting => true
  | _ => false

/-- True exactly for `appendExisting`. -/
def ResolveDecision.isAppend : ResolveDecision → Bool
  | .appendExisting => true
  | _ => false

/-- The loop of lines 162-184: scan the browsable objects for one whose type
is exactly "table" and whose name equals the entered name; on the first such
match compare its field count with `csv.columns()`, warn and abort on
mismatch, otherwise follow the user's yes/no answer. No match means a new
table will be created. -/
def resolveTarget (tn : String) (cols : Nat) (userConfirms : Bool) : List DBObject → ResolveDecision
  | [] => .createNew
  | o :: rest =>
    if o.otype == "table" && o.name == tn then
      if o.tableFields.length ≠ cols then .mismatchAbort mismatchMsg
      else if userConfirms then .appendExisting else .userDeclined
    else resolveTarget tn cols userConfirms rest

/-- Observable state of the transactional store: its objects, the stack of
open savepoints with the snapshot each would restore, and the last diagnostic
message (`DBBrowserDB::lastErrorMessage`). -/
structure Store where
  objects : List DBObject
  savepoints : List (String × List DBObject)
  lastError : String
deriving Repr, DecidableEq

/-- Find the most recently opened savepoint with the given name: its snapshot
and the stack below it. -/
def findSavepoint : List (String × List DBObject) → String → Option (List DBObject × List (String × List DBObject))
  | [], _ => none
  | (n, snap) :: rest, nm =>
    if n = nm then some (snap, rest) else findSavepoint rest nm

/-- Modelled from the spec: `revertSavepoint(name)` (the `pdb->revert` call of
line 57) restores the store to the state snapshotted when the named savepoint
was opened and closes it; reverting a name that was never opened leaves the
store unchanged. `DBBrowserDB::revert` is not part of `src/`. -/
def Store.revert (st : Store) (nm : String) : Store :=
  match findSavepoint st.savepoints nm with
  | none => st
  | some (snap, rest) => { st with objects := snap, savepoints := rest }

/-- The error text built at line 55 from the store's diagnostic message. -/
def rollbackMsg (dbErr : String) : String :=
  "Error importing data. Message from database engine: " ++ dbErr

/-- Result of one run of `ImportCsvDialog::accept`. `emptyInput` is the
return of line 126, `mismatchAbort` the return of line 173, `userDeclined`
the return of line 180, `rolledBack` any return through `rollback`, and
`accepted` the `QDialog::accept()` of line 230. -/
inductive ImportResult where
  | emptyInput
  | mismatchAbort (msg : String)
  | userDeclined
  | rolledBack (failureReason : String)
  | accepted
deriving Repr, DecidableEq

/-- A request issued to the store, in issue order. -/
inductive Event where
  | getBrowsableObjects
  | setRestorePoint (name : String)
  | createTable (name : String) (fields : List SqlbField)
  | executeSQL (sql : String)
  | revert (name : String)
deriving Repr, DecidableEq

/-- True for insert-statement requests. -/
def Event.isInsert : Event → Bool
  | .executeSQL _ => true
  | _ => false

/-- The insert-statement requests of a trace, in order. -/
def insertEvents (evs : List Event) : List Event :=
  evs.filter Event.isInsert

/-- Number of insert-statement requests of a trace. -/
def insertCount (evs : List Event) : Nat :=
  (insertEvents evs).length

/-- The anonymous-namespace `rollback` helper, lines 51-58: build the error
text from the store's current diagnostic message, then issue a revert of the
savepoint. (Hiding the progress dialog and showing the message box have no
store effect.) -/
def rollbackRun (sp : String) (st : Store) : Store × ImportResult × List Event :=
  (st.revert sp, .rolledBack (rollbackMsg st.lastError), [Event.revert sp])

/-- Failure injection and user input for one run: success of opening the
savepoint, of the create-table request and of each insert (by 0-based data-row
index), the diagnostic each failure leaves in the store, the cancellation
poll after each applied row (line 225), and the user's answer to the
append-into-existing question (line 175). -/
structure Oracle where
  savepointOk : Bool
  savepointErr : String
  createOk : Bool
  createErr : String
  insertOk : Nat → Bool
  insertErr : Nat → String
  cancelAfter : Nat → Bool
  userConfirms : Bool

/-- Modelled from the spec: a successful `executeStatement` of the INSERT
built from `row` appends the row of literal values to the first table named
`tn` (the store's SQL execution is not part of `src/`). -/
def applyInsert (tn : String) (row : List String) : List DBObject → List DBObject
  | [] => []
  | o :: rest =>
    if o.otype == "table" && o.name == tn then
      { o with rows := o.rows ++ [row] } :: rest
    else o :: applyInsert tn row rest

/-- The row loop of lines 200-227: for each data row build the INSERT
statement and issue it; on store failure record the store's diagnostic and
roll back; after a successful insert poll cancellation and roll back when
signalled; otherwise continue with the next row. -/
def insertLoop (tn sp : String) (o : Oracle) : List (List String) → Nat → Store → Store × ImportResult × List Event
  | [], _, st => (st, .accepted, [])
  | row :: rest, i, st =>
    let sql := buildInsertSQL tn row
    if o.insertOk i then
      let st1 := { st with objects := applyInsert tn row st.objects }
      if o.cancelAfter i then
        let rr := rollbackRun sp st1
        (rr.1, rr.2.1, Event.executeSQL sql :: rr.2.2)
      else
        let rr := insertLoop tn sp o rest (i + 1) st1
        (rr.1, rr.2.1, Event.executeSQL sql :: rr.2.2)
    else
      let stE := { st with lastError := o.insertErr i }
      let rr := rollbackRun sp stE
      (rr.1, rr.2.1, Event.executeSQL sql :: rr.2.2)

/-- Lines 186-227 after the existing-table scan: open the savepoint (rolling
back through the helper when that fails, line 190), create the table unless
appending into an existing one (rolling back on failure, line 196), then run
the row loop. -/
def afterResolve (tn : String) (fieldList : List SqlbField) (dataRows : List (List String))
    (toExisting : Bool) (sp : String) (o : Oracle) (st : Store) : Store × ImportResult × List Event :=
  if o.savepointOk then
    let st1 : Store := { st with savepoints := (sp, st.objects) :: st.savepoints }
    if toExisting then
      let rr := insertLoop tn sp o dataRows 0 st1
      (rr.1, rr.2.1, Event.setRestorePoint sp :: rr.2.2)
    else if o.createOk then
      let st2 : Store := { st1 with objects := st1.objects ++ [⟨"table", tn, fieldList, []⟩] }
      let rr := insertLoop tn sp o dataRows 0 st2
      (rr.1, rr.2.1, Event.setRestorePoint sp :: Event.createTable tn fieldList :: rr.2.2)
    else
      let stE : Store := { st1 with lastError := o.createErr }
      let rr := rollbackRun sp stE
      (rr.1, rr.2.1, Event.setRestorePoint sp :: Event.createTable tn fieldList :: rr.2.2)
  else
    let stE : Store := { st with lastError := o.savepointErr }
    let rr := rollbackRun sp stE
    (rr.1, rr.2.1, Event.setRestorePoint sp :: rr.2.2)

/-- `ImportCsvDialog::accept`, lines 101-231, as a function of the parsed CSV
rows. Saving the user settings (lines 104-111) and parsing (lines 113-123)
have no store effect; the parser is an external collaborator, so its output
`csvRows` and its reported `csv.columns()` value `cols` are inputs, and the
dialect characters `delim`/`quoteChar` are passed through to it unused here.
`sp` is the timestamp-derived savepoint name of line 188. -/
def acceptImport (tn : String) (useHeader : Bool) (csvRows : List (List String)) (cols : Nat)
    (delim quoteChar : Char) (sp : String) (o : Oracle) (st : Store) : Store × ImportResult × List Event :=
  if csvRows.length = 0 then (st, .emptyInput, [])
  else
    let fieldList := deriveFields useHeader (csvRows.headD []) cols
    let dataRows := if useHeader then csvRows.tail else csvRows
    match resolveTarget tn cols o.userConfirms st.objects with
    | .mismatchAbort m => (st, .mismatchAbort m, [Event.getBrowsableObjects])
    | .userDeclined => (st, .userDeclined, [Event.getBrowsableObjects])
    | dec =>
      let rr := afterResolve tn fieldList dataRows dec.isAppend sp o st
      (rr.1, rr.2.1, Event.getBrowsableObjects :: rr.2.2)

/-- `ImportCsvDialog::checkInput`, lines 291-298: the OK button is enabled
exactly when the entered table name is non-empty and contains no backtick.
The dialect plays no part in it. -/
def checkInput (tn : String) : Bool :=
  !(tn.isEmpty || tn.toList.contains backtickC)


/-! Theorems. -/

theorem toList_mk (l : List Char) : (String.mk l).toList = l := rfl

theorem toList_append (a b : String) : (a ++ b).toList = a.toList ++ b.toList :=
  String.data_append a b

theorem sanitizeHeaderField_eq_strip (s : String) :
    sanitizeHeaderField s = specStripForbidden s := by
  unfold sanitizeHeaderField removeChar specStripForbidden
  simp only [toList_mk, List.filter_filter]
  congr 1
  apply List.filter_congr
  intro c _
  by_cases h1 : c = backtickC
  · subst h1; decide
  by_cases h2 : c = spaceC
  · subst h2; decide
  by_cases h3 : c = dquoteC
  · subst h3; decide
  by_cases h4 : c = squoteC
  · subst h4; decide
  by_cases h5 : c = commaC
  · subst h5; decide
  by_cases h6 : c = semicolonC
  · subst h6; decide
  have l1 : (c == backtickC) = false := beq_eq_false_iff_ne.mpr h1
  have l2 : (c == spaceC) = false := beq_eq_false_iff_ne.mpr h2
  have l3 : (c == dquoteC) = false := beq_eq_false_iff_ne.mpr h3
  have l4 : (c == squoteC) = false := beq_eq_false_iff_ne.mpr h4
  have l5 : (c == commaC) = false := beq_eq_false_iff_ne.mpr h5
  have l6 : (c == semicolonC) = false := beq_eq_false_iff_ne.mpr h6
  simp [forbiddenChars, List.contains_cons, bne, l1, l2, l3, l4, l5, l6]
  exact ⟨h1, h2, h3, h4, h5, h6⟩

theorem deriveHeaderFields_enumFrom (l : List String) (i : Nat) :
    deriveHeaderFields l i = (List.enumFrom i l).map (fun p =>
      ⟨if specStripForbidden p.2 = "" then "field" ++ toString (p.1 + 1)
        else specStripForbidden p.2, ""⟩) := by
  induction l generalizing i with
  | nil => simp [deriveHeaderFields]
  | cons f rest ih =>
    simp [deriveHeaderFields, List.enumFrom_cons, ih, headerName,
      sanitizeHeaderField_eq_strip]

/-- C4: SchemaDeriver contract. With a header, the derived columns are, in
order, one per header cell, each name obtained by stripping the six forbidden
characters from that cell alone, with `field<position>` (1-based) substituted
when stripping leaves it empty — the enumerated-map form shows each column
depends only on its own cell and position, so no cross-field deduplication
happens. Without a header, the names are exactly `field1..fieldN` for
`columnCount = N`. The declared type is always empty. -/
theorem derive_fields_contract (firstRow : List String) (cols : Nat) :
    deriveFields true firstRow cols
      = firstRow.enum.map (fun p =>
          ⟨if specStripForbidden p.2 = "" then "field" ++ toString (p.1 + 1)
            else specStripForbidden p.2, ""⟩)
    ∧ deriveFields false firstRow cols
      = (List.range cols).map (fun i => ⟨"field" ++ toString (i + 1), ""⟩)
    ∧ (∀ uh : Bool, ∀ fld ∈ deriveFields uh firstRow cols, fld.dtype = "") := by
  refine ⟨?_, rfl, ?_⟩
  · simp [deriveFields, deriveHeaderFields_enumFrom, List.enum]
  · intro uh fld hmem
    cases uh with
    | true =>
      rw [show deriveFields true firstRow cols = deriveHeaderFields firstRow 0 from rfl,
        deriveHeaderFields_enumFrom] at hmem
      obtain ⟨p, _, rfl⟩ := List.mem_map.mp hmem
      rfl
    | false =>
      obtain ⟨i, _, rfl⟩ := List.mem_map.mp hmem
      rfl

/-- Witness for `derive_fields_contract` at a concrete input: the second
derived column of a 2-column no-header derivation has an empty declared
type, and the no-header names are as claimed. -/
theorem derive_fields_contract_witness :
    SqlbField.dtype ⟨"field2", ""⟩ = ""
    ∧ deriveFields false [] 2 = [⟨"field1", ""⟩, ⟨"field2", ""⟩] :=
  ⟨(derive_fields_contract [] 2).2.2 false ⟨"field2", ""⟩ (by decide), by decide⟩

theorem unescapeQ_escapeQ (l : List Char) : unescapeQ (escapeQ l) = l := by
  induction l with
  | nil => simp [escapeQ, unescapeQ]
  | cons c rest ih =>
    by_cases h : c = squoteC
    · subst h
      simp [escapeQ, unescapeQ, ih]
    · rw [show escapeQ (c :: rest) = c :: escapeQ rest by simp [escapeQ, h]]
      cases hrest : escapeQ rest with
      | nil =>
        have : rest = [] := by
          cases rest with
          | nil => rfl
          | cons d t => simp [escapeQ] at hrest; split at hrest <;> simp at hrest
        subst this
        simp [unescapeQ]
      | cons d t =>
        rw [show unescapeQ (c :: d :: t) = c :: unescapeQ (d :: t) by
          simp [unescapeQ, h]]
        rw [← hrest, ih]

theorem mprintfQ_ne_NULL (s : String) : mprintfQ s ≠ "NULL" := by
  intro h
  have h2 : squoteC :: (escapeQ s.toList ++ [squoteC]) = "NULL".toList :=
    congrArg String.toList h
  rw [show "NULL".toList = [Char.ofNat 78, Char.ofNat 85, Char.ofNat 76, Char.ofNat 76] from rfl] at h2
  injection h2 with hh _
  exact absurd hh (by decide)

theorem mem_valuesPart_sub (row : List String) :
    ∀ f ∈ row, (mprintfQ f).toList <:+: (valuesPart row).toList := by
  induction row with
  | nil => intro f hf; cases hf
  | cons g rest ih =>
    intro f hf
    cases rest with
    | nil =>
      rcases List.mem_cons.mp hf with h | h
      · subst h; exact List.infix_refl _
      · exact absurd h (List.not_mem_nil f)
    | cons g2 t =>
      rcases List.mem_cons.mp hf with h | hmem
      · subst h
        rw [show valuesPart (f :: g2 :: t) = mprintfQ f ++ "," ++ valuesPart (g2 :: t)
          from rfl, toList_append, toList_append, List.append_assoc]
        exact (List.prefix_append _ _).isInfix
      · rw [show valuesPart (g :: g2 :: t) = mprintfQ g ++ "," ++ valuesPart (g2 :: t)
          from rfl, toList_append]
        exact (ih f hmem).trans (List.suffix_append _ _).isInfix

/-- C8: literal-string insertion. Every field of the row appears in the built
INSERT statement as its quoted, quote-doubled literal; the escaping is
faithful (it can be read back to exactly the original value, so no type
coercion happens); an empty field becomes the empty string literal, two
single quotes; and no field value ever produces the unquoted token NULL. -/
theorem insert_values_literal (tn : String) (row : List String) :
    (∀ f ∈ row, (mprintfQ f).toList <:+: (buildInsertSQL tn row).toList)
    ∧ (∀ s : String, mprintfQ s = String.mk (squoteC :: escapeQ s.toList ++ [squoteC])
        ∧ unescapeQ (escapeQ s.toList) = s.toList)
    ∧ mprintfQ "" = String.mk [squoteC, squoteC]
    ∧ (∀ s : String, mprintfQ s ≠ "NULL") := by
  refine ⟨?_, fun s => ⟨rfl, unescapeQ_escapeQ s.toList⟩, rfl, mprintfQ_ne_NULL⟩
  intro f hf
  rw [show buildInsertSQL tn row
      = ("INSERT INTO " ++ String.singleton backtickC ++ tn ++ String.singleton backtickC
        ++ " VALUES(") ++ valuesPart row ++ ");" by simp [buildInsertSQL]]
  rw [toList_append, toList_append]
  exact (mem_valuesPart_sub row f hf).trans (List.infix_append _ _ _)

/-- Witness for `insert_values_literal` at a concrete input: in the statement
built for the row `["a", ""]` the empty field appears as the empty string
literal. -/
theorem insert_values_literal_witness :
    (mprintfQ "").toList <:+: (buildInsertSQL "t" ["a", ""]).toList
    ∧ mprintfQ "" = String.mk [squoteC, squoteC] :=
  ⟨(insert_values_literal "t" ["a", ""]).1 "" (by decide),
   (insert_values_literal "t" ["a", ""]).2.2.1⟩

theorem insertCount_exec_cons (s : String) (evs : List Event) :
    insertCount (Event.executeSQL s :: evs) = insertCount evs + 1 := by
  simp [insertCount, insertEvents, Event.isInsert]

theorem insertCount_revert_cons (n : String) (evs : List Event) :
    insertCount (Event.revert n :: evs) = insertCount evs := by
  simp [insertCount, insertEvents, Event.isInsert]

theorem insertLoop_accepted_events (tn sp : String) (o : Oracle) :
    ∀ (rows : List (List String)) (i : Nat) (st : Store),
      (insertLoop tn sp o rows i st).2.1 = ImportResult.accepted →
      insertEvents (insertLoop tn sp o rows i st).2.2
        = rows.map (fun r => Event.executeSQL (buildInsertSQL tn r)) := by
  intro rows
  induction rows with
  | nil => intro i st _; simp [insertLoop, insertEvents]
  | cons row rest ih =>
    intro i st h
    by_cases hins : o.insertOk i = true
    · by_cases hcan : o.cancelAfter i = true
      · simp [insertLoop, hins, hcan, rollbackRun] at h
      · have h' : (insertLoop tn sp o rest (i + 1)
            { st with objects := applyInsert tn row st.objects }).2.1
              = ImportResult.accepted := by
          simpa [insertLoop, hins, hcan] using h
        have e := ih (i + 1) { st with objects := applyInsert tn row st.objects } h'
        simp only [insertEvents] at e ⊢
        simp [insertLoop, hins, hcan, List.filter_cons, Event.isInsert, e]
    · simp [insertLoop, hins, rollbackRun] at h

theorem insertLoop_rolledBack_state (tn sp : String) (o : Oracle) :
    ∀ (rows : List (List String)) (i : Nat) (st : Store)
      (snap : List DBObject) (sps : List (String × List DBObject)) (m : String),
      st.savepoints = (sp, snap) :: sps →
      (insertLoop tn sp o rows i st).2.1 = ImportResult.rolledBack m →
      ((insertLoop tn sp o rows i st).1).objects = snap
        ∧ ((insertLoop tn sp o rows i st).1).savepoints = sps := by
  intro rows
  induction rows with
  | nil => intro i st snap sps m _ h; simp [insertLoop] at h
  | cons row rest ih =>
    intro i st snap sps m hsp h
    by_cases hins : o.insertOk i = true
    · by_cases hcan : o.cancelAfter i = true
      · simp [insertLoop, hins, hcan, rollbackRun, Store.revert, hsp, findSavepoint]
      · have hsp' : ({ st with objects := applyInsert tn row st.objects } : Store).savepoints
            = (sp, snap) :: sps := hsp
        have h' : (insertLoop tn sp o rest (i + 1)
            { st with objects := applyInsert tn row st.objects }).2.1
              = ImportResult.rolledBack m := by
          simpa [insertLoop, hins, hcan] using h
        have e := ih (i + 1) { st with objects := applyInsert tn row st.objects } snap sps m hsp' h'
        simpa [insertLoop, hins, hcan] using e
    · simp [insertLoop, hins, rollbackRun, Store.revert, hsp, findSavepoint]

theorem insertLoop_fail_at (tn sp : String) (o : Oracle) :
    ∀ (rows : List (List String)) (n i : Nat) (st : Store),
      n < rows.length →
      (∀ j, j < n → o.insertOk (i + j) = true ∧ o.cancelAfter (i + j) = false) →
      o.insertOk (i + n) = false →
      (insertLoop tn sp o rows i st).2.1
          = ImportResult.rolledBack (rollbackMsg (o.insertErr (i + n)))
        ∧ insertCount (insertLoop tn sp o rows i st).2.2 = n + 1 := by
  intro rows
  induction rows with
  | nil => intro n i st hlen _ _; simp at hlen
  | cons row rest ih =>
    intro n i st hlen hpre hfail
    cases n with
    | zero =>
      have hf : o.insertOk i = false := by simpa using hfail
      have hf' : ¬ (o.insertOk i = true) := by simp [hf]
      constructor
      · simp [insertLoop, hf', rollbackRun]
      · simp [insertLoop, hf', rollbackRun, insertCount, insertEvents,
          List.filter_cons, Event.isInsert]
    | succ m =>
      have h0 := hpre 0 (Nat.succ_pos m)
      have h0i : o.insertOk i = true := by simpa using h0.1
      have h0c : o.cancelAfter i = false := by simpa using h0.2
      have h0c' : ¬ (o.cancelAfter i = true) := by simp [h0c]
      have hlen' : m < rest.length := by simpa using Nat.lt_of_succ_lt_succ (by simpa using hlen)
      have hpre' : ∀ j, j < m → o.insertOk (i + 1 + j) = true ∧ o.cancelAfter (i + 1 + j) = false := by
        intro j hj
        have := hpre (j + 1) (by omega)
        constructor
        · rw [show i + 1 + j = i + (j + 1) by omega]; exact this.1
        · rw [show i + 1 + j = i + (j + 1) by omega]; exact this.2
      have hfail' : o.insertOk (i + 1 + m) = false := by
        rw [show i + 1 + m = i + (m + 1) by omega]; exact hfail
      obtain ⟨hres, hcount⟩ :=
        ih m (i + 1) { st with objects := applyInsert tn row st.objects } hlen' hpre' hfail'
      rw [show i + 1 + m = i + (m + 1) by omega] at hres
      constructor
      · simpa [insertLoop, h0i, h0c'] using hres
      · have : insertCount (insertLoop tn sp o (row :: rest) i st).2.2
            = insertCount (insertLoop tn sp o rest (i + 1)
                { st with objects := applyInsert tn row st.objects }).2.2 + 1 := by
          simp [insertLoop, h0i, h0c', insertCount_exec_cons]
        rw [this, hcount]

theorem insertLoop_cancel_at (tn sp : String) (o : Oracle) :
    ∀ (rows : List (List String)) (c i : Nat) (st : Store),
      c < rows.length →
      (∀ j, j ≤ c → o.insertOk (i + j) = true) →
      (∀ j, j < c → o.cancelAfter (i + j) = false) →
      o.cancelAfter (i + c) = true →
      (insertLoop tn sp o rows i st).2.1 = ImportResult.rolledBack (rollbackMsg st.lastError)
        ∧ insertCount (insertLoop tn sp o rows i st).2.2 = c + 1 := by
  intro rows
  induction rows with
  | nil => intro c i st hlen _ _ _; simp at hlen
  | cons row rest ih =>
    intro c i st hlen hok hnc hc
    cases c with
    | zero =>
      have h0i : o.insertOk i = true := by simpa using hok 0 (Nat.le_refl 0)
      have h0c : o.cancelAfter i = true := by simpa using hc
      constructor
      · simp [insertLoop, h0i, h0c, rollbackRun]
      · simp [insertLoop, h0i, h0c, rollbackRun, insertCount, insertEvents,
          List.filter_cons, Event.isInsert]
    | succ m =>
      have h0i : o.insertOk i = true := by simpa using hok 0 (Nat.zero_le _)
      have h0c : o.cancelAfter i = false := by simpa using hnc 0 (Nat.succ_pos m)
      have h0c' : ¬ (o.cancelAfter i = true) := by simp [h0c]
      have hlen' : m < rest.length := by simpa using Nat.lt_of_succ_lt_succ (by simpa using hlen)
      have hok' : ∀ j, j ≤ m → o.insertOk (i + 1 + j) = true := by
        intro j hj
        have := hok (j + 1) (by omega)
        rw [show i + 1 + j = i + (j + 1) by omega]; exact this
      have hnc' : ∀ j, j < m → o.cancelAfter (i + 1 + j) = false := by
        intro j hj
        have := hnc (j + 1) (by omega)
        rw [show i + 1 + j = i + (j + 1) by omega]; exact this
      have hc' : o.cancelAfter (i + 1 + m) = true := by
        rw [show i + 1 + m = i + (m + 1) by omega]; exact hc
      obtain ⟨hres, hcount⟩ :=
        ih m (i + 1) { st with objects := applyInsert tn row st.objects } hlen' hok' hnc' hc'
      constructor
      · simpa [insertLoop, h0i, h0c'] using hres
      · have : insertCount (insertLoop tn sp o (row :: rest) i st).2.2
            = insertCount (insertLoop tn sp o rest (i + 1)
                { st with objects := applyInsert tn row st.objects }).2.2 + 1 := by
          simp [insertLoop, h0i, h0c', insertCount_exec_cons]
        rw [this, hcount]

theorem insertEvents_cons_not (e : Event) (evs : List Event) (h : e.isInsert = false) :
    insertEvents (e :: evs) = insertEvents evs := by
  simp [insertEvents, List.filter_cons, h]

theorem insertCount_cons_not (e : Event) (evs : List Event) (h : e.isInsert = false) :
    insertCount (e :: evs) = insertCount evs := by
  simp [insertCount, insertEvents_cons_not e evs h]

theorem acceptImport_createNew_reduce (tn : String) (uh : Bool) (rows : List (List String))
    (cols : Nat) (d q : Char) (sp : String) (o : Oracle) (st : Store)
    (hne : ¬ rows.length = 0)
    (hdec : resolveTarget tn cols o.userConfirms st.objects = ResolveDecision.createNew)
    (hsp : o.savepointOk = true) (hct : o.createOk = true) :
    acceptImport tn uh rows cols d q sp o st
      = ((insertLoop tn sp o (if uh then rows.tail else rows) 0
            ⟨st.objects ++ [⟨"table", tn, deriveFields uh (rows.headD []) cols, []⟩],
             (sp, st.objects) :: st.savepoints, st.lastError⟩).1,
         (insertLoop tn sp o (if uh then rows.tail else rows) 0
            ⟨st.objects ++ [⟨"table", tn, deriveFields uh (rows.headD []) cols, []⟩],
             (sp, st.objects) :: st.savepoints, st.lastError⟩).2.1,
         Event.getBrowsableObjects :: Event.setRestorePoint sp
           :: Event.createTable tn (deriveFields uh (rows.headD []) cols)
           :: (insertLoop tn sp o (if uh then rows.tail else rows) 0
            ⟨st.objects ++ [⟨"table", tn, deriveFields uh (rows.headD []) cols, []⟩],
             (sp, st.objects) :: st.savepoints, st.lastError⟩).2.2) := by
  simp [acceptImport, hne, hdec, afterResolve, hsp, hct, ResolveDecision.isAppend]

theorem acceptImport_append_reduce (tn : String) (uh : Bool) (rows : List (List String))
    (cols : Nat) (d q : Char) (sp : String) (o : Oracle) (st : Store)
    (hne : ¬ rows.length = 0)
    (hdec : resolveTarget tn cols o.userConfirms st.objects = ResolveDecision.appendExisting)
    (hsp : o.savepointOk = true) :
    acceptImport tn uh rows cols d q sp o st
      = ((insertLoop tn sp o (if uh then rows.tail else rows) 0
            ⟨st.objects, (sp, st.objects) :: st.savepoints, st.lastError⟩).1,
         (insertLoop tn sp o (if uh then rows.tail else rows) 0
            ⟨st.objects, (sp, st.objects) :: st.savepoints, st.lastError⟩).2.1,
         Event.getBrowsableObjects :: Event.setRestorePoint sp
           :: (insertLoop tn sp o (if uh then rows.tail else rows) 0
            ⟨st.objects, (sp, st.objects) :: st.savepoints, st.lastError⟩).2.2) := by
  simp [acceptImport, hne, hdec, afterResolve, hsp, ResolveDecision.isAppend]

/-- C1: atomicity of the import under a store-level insert failure. If the
savepoint opened, the table creation (when needed) succeeded, and the store
rejects the k-th data-row insert (1-based, after accepting the first k-1 and
with no cancellation before), then the importer stops after issuing exactly k
insert requests, ends rolled back carrying the diagnostic built from the
store's message, and the revert of the savepoint restores the store's objects
and savepoint stack to exactly their pre-import state: no row of 1..k-1 and
no created table persists. -/
theorem insert_failure_is_atomic (tn : String) (uh : Bool) (rows : List (List String))
    (cols : Nat) (d q : Char) (sp : String) (o : Oracle) (st : Store) (k : Nat)
    (hk1 : 1 ≤ k) (hk2 : k ≤ (if uh then rows.tail else rows).length)
    (hsp : o.savepointOk = true) (hct : o.createOk = true)
    (hpre : ∀ j, j < k - 1 → o.insertOk j = true ∧ o.cancelAfter j = false)
    (hfail : o.insertOk (k - 1) = false)
    (hproceed : (resolveTarget tn cols o.userConfirms st.objects).proceeds = true) :
    ((acceptImport tn uh rows cols d q sp o st).1).objects = st.objects
    ∧ ((acceptImport tn uh rows cols d q sp o st).1).savepoints = st.savepoints
    ∧ (acceptImport tn uh rows cols d q sp o st).2.1
        = ImportResult.rolledBack (rollbackMsg (o.insertErr (k - 1)))
    ∧ insertCount (acceptImport tn uh rows cols d q sp o st).2.2 = k := by
  have hne : ¬ rows.length = 0 := by
    intro h0
    have : rows = [] := List.length_eq_zero.mp h0
    subst this
    cases uh <;> simp at hk2 <;> omega
  have hlen : k - 1 < (if uh then rows.tail else rows).length := by omega
  have hpre' : ∀ j, j < k - 1 → o.insertOk (0 + j) = true ∧ o.cancelAfter (0 + j) = false := by
    intro j hj; simpa using hpre j hj
  have hfail' : o.insertOk (0 + (k - 1)) = false := by simpa using hfail
  rcases hdecv : resolveTarget tn cols o.userConfirms st.objects with _ | _ | m | _
  case mismatchAbort =>
    rw [hdecv] at hproceed
    simp [ResolveDecision.proceeds] at hproceed
  case userDeclined =>
    rw [hdecv] at hproceed
    simp [ResolveDecision.proceeds] at hproceed
  case createNew =>
    rw [acceptImport_createNew_reduce tn uh rows cols d q sp o st hne hdecv hsp hct]
    obtain ⟨hres, hcount⟩ := insertLoop_fail_at tn sp o (if uh then rows.tail else rows)
      (k - 1) 0
      ⟨st.objects ++ [⟨"table", tn, deriveFields uh (rows.headD []) cols, []⟩],
       (sp, st.objects) :: st.savepoints, st.lastError⟩ hlen hpre' hfail'
    obtain ⟨hobj, hsps⟩ := insertLoop_rolledBack_state tn sp o (if uh then rows.tail else rows)
      0 ⟨st.objects ++ [⟨"table", tn, deriveFields uh (rows.headD []) cols, []⟩],
       (sp, st.objects) :: st.savepoints, st.lastError⟩ st.objects st.savepoints _ rfl hres
    refine ⟨hobj, hsps, by simpa using hres, ?_⟩
    simp only [insertCount_cons_not Event.getBrowsableObjects _ rfl,
      insertCount_cons_not (Event.setRestorePoint sp) _ rfl,
      insertCount_cons_not (Event.createTable tn (deriveFields uh (rows.headD []) cols)) _ rfl]
    omega
  case appendExisting =>
    rw [acceptImport_append_reduce tn uh rows cols d q sp o st hne hdecv hsp]
    obtain ⟨hres, hcount⟩ := insertLoop_fail_at tn sp o (if uh then rows.tail else rows)
      (k - 1) 0 ⟨st.objects, (sp, st.objects) :: st.savepoints, st.lastError⟩ hlen hpre' hfail'
    obtain ⟨hobj, hsps⟩ := insertLoop_rolledBack_state tn sp o (if uh then rows.tail else rows)
      0 ⟨st.objects, (sp, st.objects) :: st.savepoints, st.lastError⟩
      st.objects st.savepoints _ rfl hres
    refine ⟨hobj, hsps, by simpa using hres, ?_⟩
    simp only [insertCount_cons_not Event.getBrowsableObjects _ rfl,
      insertCount_cons_not (Event.setRestorePoint sp) _ rfl]
    omega

/-- Witness for `insert_failure_is_atomic`: three data rows against an empty
store, the store rejects the second insert; everything is rolled back after
exactly two insert requests. -/
theorem insert_failure_is_atomic_witness :
    ((acceptImport "t" false [["a"], ["b"], ["c"]] 1 'a' 'b' "sp"
        ⟨true, "", true, "", fun j => j != 1, fun _ => "boom", fun _ => false, true⟩
        ⟨[], [], "E"⟩).1).objects = []
    ∧ ((acceptImport "t" false [["a"], ["b"], ["c"]] 1 'a' 'b' "sp"
        ⟨true, "", true, "", fun j => j != 1, fun _ => "boom", fun _ => false, true⟩
        ⟨[], [], "E"⟩).1).savepoints = []
    ∧ (acceptImport "t" false [["a"], ["b"], ["c"]] 1 'a' 'b' "sp"
        ⟨true, "", true, "", fun j => j != 1, fun _ => "boom", fun _ => false, true⟩
        ⟨[], [], "E"⟩).2.1 = ImportResult.rolledBack (rollbackMsg "boom")
    ∧ insertCount (acceptImport "t" false [["a"], ["b"], ["c"]] 1 'a' 'b' "sp"
        ⟨true, "", true, "", fun j => j != 1, fun _ => "boom", fun _ => false, true⟩
        ⟨[], [], "E"⟩).2.2 = 2 :=
  insert_failure_is_atomic "t" false [["a"], ["b"], ["c"]] 1 'a' 'b' "sp"
    ⟨true, "", true, "", fun j => j != 1, fun _ => "boom", fun _ => false, true⟩
    ⟨[], [], "E"⟩ 2 (by decide) (by decide) rfl rfl
    (by decide) (by decide) (by decide)

/-- C2 counterexample: the claim says the outcome of a cancelled import
carries failureReason = "cancelled". In the code every rollback path,
including cancellation (line 226), goes through the shared `rollback` helper
whose message is built from the database engine's last error message
(line 55), never the string "cancelled". Concretely: two data rows,
cancellation observed after the first applied row, store diagnostic "E". -/
theorem cancel_reason_not_cancelled :
    (acceptImport "t" false [["a"], ["b"]] 1 'a' 'b' "sp"
        ⟨true, "", true, "", fun _ => true, fun _ => "", fun j => j == 0, true⟩
        ⟨[], [], "E"⟩).2.1
      = ImportResult.rolledBack "Error importing data. Message from database engine: E"
    ∧ ("Error importing data. Message from database engine: E" ≠ "cancelled")
    ∧ (acceptImport "t" false [["a"], ["b"]] 1 'a' 'b' "sp"
        ⟨true, "", true, "", fun _ => true, fun _ => "", fun j => j == 0, true⟩
        ⟨[], [], "E"⟩).2.1 ≠ ImportResult.rolledBack "cancelled" := by
  refine ⟨rfl, by decide, by decide⟩

/-- C2 (amended): cancellation observed after the (c+1)-th applied row aborts
the remaining rows (exactly c+1 insert requests are issued), reverts the
savepoint so the store's objects and savepoint stack are exactly as before
the attempt, and ends rolled back — but the outcome carries the generic
error diagnostic built from the store's last error message, not the string
"cancelled". -/
theorem cancel_rolls_back_with_store_diag (tn : String) (uh : Bool)
    (rows : List (List String)) (cols : Nat) (d q : Char) (sp : String)
    (o : Oracle) (st : Store) (c : Nat)
    (hc : c < (if uh then rows.tail else rows).length)
    (hsp : o.savepointOk = true) (hct : o.createOk = true)
    (hok : ∀ j, j ≤ c → o.insertOk j = true)
    (hnc : ∀ j, j < c → o.cancelAfter j = false)
    (hcan : o.cancelAfter c = true)
    (hproceed : (resolveTarget tn cols o.userConfirms st.objects).proceeds = true) :
    ((acceptImport tn uh rows cols d q sp o st).1).objects = st.objects
    ∧ ((acceptImport tn uh rows cols d q sp o st).1).savepoints = st.savepoints
    ∧ (acceptImport tn uh rows cols d q sp o st).2.1
        = ImportResult.rolledBack (rollbackMsg st.lastError)
    ∧ insertCount (acceptImport tn uh rows cols d q sp o st).2.2 = c + 1 := by
  have hne : ¬ rows.length = 0 := by
    intro h0
    have : rows = [] := List.length_eq_zero.mp h0
    subst this
    cases uh <;> simp at hc
  have hok' : ∀ j, j ≤ c → o.insertOk (0 + j) = true := by
    intro j hj; simpa using hok j hj
  have hnc' : ∀ j, j < c → o.cancelAfter (0 + j) = false := by
    intro j hj; simpa using hnc j hj
  have hcan' : o.cancelAfter (0 + c) = true := by simpa using hcan
  rcases hdecv : resolveTarget tn cols o.userConfirms st.objects with _ | _ | m | _
  case mismatchAbort =>
    rw [hdecv] at hproceed
    simp [ResolveDecision.proceeds] at hproceed
  case userDeclined =>
    rw [hdecv] at hproceed
    simp [ResolveDecision.proceeds] at hproceed
  case createNew =>
    rw [acceptImport_createNew_reduce tn uh rows cols d q sp o st hne hdecv hsp hct]
    obtain ⟨hres, hcount⟩ := insertLoop_cancel_at tn sp o (if uh then rows.tail else rows)
      c 0
      ⟨st.objects ++ [⟨"table", tn, deriveFields uh (rows.headD []) cols, []⟩],
       (sp, st.objects) :: st.savepoints, st.lastError⟩ hc hok' hnc' hcan'
    obtain ⟨hobj, hsps⟩ := insertLoop_rolledBack_state tn sp o (if uh then rows.tail else rows)
      0 ⟨st.objects ++ [⟨"table", tn, deriveFields uh (rows.headD []) cols, []⟩],
       (sp, st.objects) :: st.savepoints, st.lastError⟩ st.objects st.savepoints _ rfl hres
    refine ⟨hobj, hsps, by simpa using hres, ?_⟩
    simp only [insertCount_cons_not Event.getBrowsableObjects _ rfl,
      insertCount_cons_not (Event.setRestorePoint sp) _ rfl,
      insertCount_cons_not (Event.createTable tn (deriveFields uh (rows.headD []) cols)) _ rfl]
    exact hcount
  case appendExisting =>
    rw [acceptImport_append_reduce tn uh rows cols d q sp o st hne hdecv hsp]
    obtain ⟨hres, hcount⟩ := insertLoop_cancel_at tn sp o (if uh then rows.tail else rows)
      c 0 ⟨st.objects, (sp, st.objects) :: st.savepoints, st.lastError⟩ hc hok' hnc' hcan'
    obtain ⟨hobj, hsps⟩ := insertLoop_rolledBack_state tn sp o (if uh then rows.tail else rows)
      0 ⟨st.objects, (sp, st.objects) :: st.savepoints, st.lastError⟩
      st.objects st.savepoints _ rfl hres
    refine ⟨hobj, hsps, by simpa using hres, ?_⟩
    simp only [insertCount_cons_not Event.getBrowsableObjects _ rfl,
      insertCount_cons_not (Event.setRestorePoint sp) _ rfl]
    exact hcount

/-- Witness for `cancel_rolls_back_with_store_diag`: 100 data rows appended
into an existing 1-column table "t", cancellation observed after row 40 is
applied; the store is restored and 40 insert requests were issued. -/
theorem cancel_rolls_back_with_store_diag_witness :
    ((acceptImport "t" false (List.replicate 100 ["x"]) 1 'a' 'b' "sp"
        ⟨true, "", true, "", fun _ => true, fun _ => "", fun j => j == 39, true⟩
        ⟨[⟨"table", "t", [⟨"field1", ""⟩], []⟩], [], "E"⟩).1).objects
      = [⟨"table", "t", [⟨"field1", ""⟩], []⟩]
    ∧ ((acceptImport "t" false (List.replicate 100 ["x"]) 1 'a' 'b' "sp"
        ⟨true, "", true, "", fun _ => true, fun _ => "", fun j => j == 39, true⟩
        ⟨[⟨"table", "t", [⟨"field1", ""⟩], []⟩], [], "E"⟩).1).savepoints = []
    ∧ (acceptImport "t" false (List.replicate 100 ["x"]) 1 'a' 'b' "sp"
        ⟨true, "", true, "", fun _ => true, fun _ => "", fun j => j == 39, true⟩
        ⟨[⟨"table", "t", [⟨"field1", ""⟩], []⟩], [], "E"⟩).2.1
      = ImportResult.rolledBack (rollbackMsg "E")
    ∧ insertCount (acceptImport "t" false (List.replicate 100 ["x"]) 1 'a' 'b' "sp"
        ⟨true, "", true, "", fun _ => true, fun _ => "", fun j => j == 39, true⟩
        ⟨[⟨"table", "t", [⟨"field1", ""⟩], []⟩], [], "E"⟩).2.2 = 40 :=
  cancel_rolls_back_with_store_diag "t" false (List.replicate 100 ["x"]) 1 'a' 'b' "sp"
    ⟨true, "", true, "", fun _ => true, fun _ => "", fun j => j == 39, true⟩
    ⟨[⟨"table", "t", [⟨"field1", ""⟩], []⟩], [], "E"⟩ 39
    (by decide) rfl rfl (by decide) (by decide) (by decide) (by decide)

theorem findSavepoint_not_mem (l : List (String × List DBObject)) (nm : String)
    (h : ∀ p ∈ l, p.1 ≠ nm) : findSavepoint l nm = none := by
  induction l with
  | nil => rfl
  | cons p rest ih =>
    obtain ⟨n, snap⟩ := p
    have hn : n ≠ nm := h (n, snap) (List.mem_cons_self _ _)
    simp [findSavepoint, hn]
    exact ih (fun p hp => h p (List.mem_cons_of_mem _ hp))

/-- C3 counterexample: the claim says that when the store cannot open the
savepoint no savepoint revert is performed. In the code line 190 returns
through the shared `rollback` helper, which does call `pdb->revert` on the
never-opened savepoint name (line 57). Concretely: the trace of a run whose
savepoint open fails contains the revert request. -/
theorem savepoint_fail_still_issues_revert :
    Event.revert "sp" ∈ (acceptImport "t" false [["a"]] 1 'a' 'b' "sp"
        ⟨false, "SPERR", true, "", fun _ => true, fun _ => "", fun _ => false, true⟩
        ⟨[], [], "E"⟩).2.2 := by
  decide

/-- C3 (amended): if the store cannot open the savepoint, the importer fails
through the generic rollback path, reporting the diagnostic built from the
store's message, and does issue a revert of the never-opened savepoint name;
since that savepoint does not exist, the revert leaves the store's objects
and savepoint stack untouched, and no create or insert request is ever
issued. -/
theorem savepoint_fail_store_untouched (tn : String) (uh : Bool)
    (rows : List (List String)) (cols : Nat) (d q : Char) (sp : String)
    (o : Oracle) (st : Store)
    (hne : ¬ rows.length = 0)
    (hsp : o.savepointOk = false)
    (hfresh : ∀ p ∈ st.savepoints, p.1 ≠ sp)
    (hproceed : (resolveTarget tn cols o.userConfirms st.objects).proceeds = true) :
    acceptImport tn uh rows cols d q sp o st
      = (⟨st.objects, st.savepoints, o.savepointErr⟩,
         ImportResult.rolledBack (rollbackMsg o.savepointErr),
         [Event.getBrowsableObjects, Event.setRestorePoint sp, Event.revert sp]) := by
  have hnone : findSavepoint st.savepoints sp = none := findSavepoint_not_mem _ _ hfresh
  rcases hdecv : resolveTarget tn cols o.userConfirms st.objects with _ | _ | m | _
  case mismatchAbort =>
    rw [hdecv] at hproceed
    simp [ResolveDecision.proceeds] at hproceed
  case userDeclined =>
    rw [hdecv] at hproceed
    simp [ResolveDecision.proceeds] at hproceed
  case createNew =>
    simp [acceptImport, hne, hdecv, afterResolve, hsp, rollbackRun, Store.revert, hnone]
  case appendExisting =>
    simp [acceptImport, hne, hdecv, afterResolve, hsp, rollbackRun, Store.revert, hnone]

/-- Witness for `savepoint_fail_store_untouched` at a concrete input. -/
theorem savepoint_fail_store_untouched_witness :
    acceptImport "t" false [["a"]] 1 'a' 'b' "sp"
        ⟨false, "SPERR", true, "", fun _ => true, fun _ => "", fun _ => false, true⟩
        ⟨[], [], "E"⟩
      = (⟨[], [], "SPERR"⟩,
         ImportResult.rolledBack (rollbackMsg "SPERR"),
         [Event.getBrowsableObjects, Event.setRestorePoint "sp", Event.revert "sp"]) :=
  savepoint_fail_store_untouched "t" false [["a"]] 1 'a' 'b' "sp"
    ⟨false, "SPERR", true, "", fun _ => true, fun _ => "", fun _ => false, true⟩
    ⟨[], [], "E"⟩ (by decide) rfl (by decide) (by decide)

/-- C7: order preservation. On a successful import, the issued
insert-statement requests are exactly one per data row (post header-skip),
in the row source's original order: the trace's insert events equal the map
of the statement builder over the data rows, so the i-th insert is built
from the i-th produced row with its fields in positional order. -/
theorem success_inserts_in_order (tn : String) (uh : Bool) (rows : List (List String))
    (cols : Nat) (d q : Char) (sp : String) (o : Oracle) (st : Store)
    (st' : Store) (evs : List Event)
    (h : acceptImport tn uh rows cols d q sp o st = (st', ImportResult.accepted, evs)) :
    insertEvents evs = (if uh then rows.tail else rows).map
      (fun r => Event.executeSQL (buildInsertSQL tn r))
    ∧ (insertEvents evs).length = (if uh then rows.tail else rows).length := by
  suffices hmain : insertEvents evs = (if uh then rows.tail else rows).map
      (fun r => Event.executeSQL (buildInsertSQL tn r)) by
    exact ⟨hmain, by rw [hmain, List.length_map]⟩
  by_cases hne : rows.length = 0
  · have : rows = [] := List.length_eq_zero.mp hne
    subst this
    simp [acceptImport, Prod.ext_iff] at h
  · rcases hdecv : resolveTarget tn cols o.userConfirms st.objects with _ | _ | m | _
    · by_cases hsp : o.savepointOk = true
      · by_cases hct : o.createOk = true
        · rw [acceptImport_createNew_reduce tn uh rows cols d q sp o st hne hdecv hsp hct] at h
          rw [Prod.mk.injEq, Prod.mk.injEq] at h
          rw [← h.2.2,
            insertEvents_cons_not Event.getBrowsableObjects _ rfl,
            insertEvents_cons_not (Event.setRestorePoint sp) _ rfl,
            insertEvents_cons_not (Event.createTable tn (deriveFields uh (rows.headD []) cols)) _ rfl]
          exact insertLoop_accepted_events tn sp o _ 0 _ h.2.1
        · simp [acceptImport, hne, hdecv, afterResolve, hsp, hct, rollbackRun,
            ResolveDecision.isAppend, Prod.ext_iff] at h
      · simp [acceptImport, hne, hdecv, afterResolve, hsp, rollbackRun, Prod.ext_iff] at h
    · by_cases hsp : o.savepointOk = true
      · rw [acceptImport_append_reduce tn uh rows cols d q sp o st hne hdecv hsp] at h
        rw [Prod.mk.injEq, Prod.mk.injEq] at h
        rw [← h.2.2,
          insertEvents_cons_not Event.getBrowsableObjects _ rfl,
          insertEvents_cons_not (Event.setRestorePoint sp) _ rfl]
        exact insertLoop_accepted_events tn sp o _ 0 _ h.2.1
      · simp [acceptImport, hne, hdecv, afterResolve, hsp, rollbackRun, Prod.ext_iff] at h
    · simp [acceptImport, hne, hdecv, Prod.ext_iff] at h
    · simp [acceptImport, hne, hdecv, Prod.ext_iff] at h

/-- Witness for `success_inserts_in_order`: a successful two-row import into
a new table issues exactly the two inserts in row order. -/
theorem success_inserts_in_order_witness :
    insertEvents [Event.getBrowsableObjects, Event.setRestorePoint "sp",
        Event.createTable "t" [⟨"field1", ""⟩],
        Event.executeSQL (buildInsertSQL "t" ["a"]),
        Event.executeSQL (buildInsertSQL "t" ["b"])]
      = [["a"], ["b"]].map (fun r => Event.executeSQL (buildInsertSQL "t" r))
    ∧ (insertEvents [Event.getBrowsableObjects, Event.setRestorePoint "sp",
        Event.createTable "t" [⟨"field1", ""⟩],
        Event.executeSQL (buildInsertSQL "t" ["a"]),
        Event.executeSQL (buildInsertSQL "t" ["b"])]).length = 2 :=
  success_inserts_in_order "t" false [["a"], ["b"]] 1 'a' 'b' "sp"
    ⟨true, "", true, "", fun _ => true, fun _ => "", fun _ => false, true⟩
    ⟨[], [], "E"⟩
    ⟨[⟨"table", "t", [⟨"field1", ""⟩], [["a"], ["b"]]⟩], [("sp", [])], "E"⟩
    [Event.getBrowsableObjects, Event.setRestorePoint "sp",
      Event.createTable "t" [⟨"field1", ""⟩],
      Event.executeSQL (buildInsertSQL "t" ["a"]),
      Event.executeSQL (buildInsertSQL "t" ["b"])]
    (by decide)

/-- C9: empty-input no-op. When the parser produces zero rows the import
returns at once (line 126): no savepoint, no table creation, no insert —
the store is returned untouched, the request trace is empty, and the result
carries no failure reason. -/
theorem empty_input_noop (tn : String) (uh : Bool) (cols : Nat) (d q : Char)
    (sp : String) (o : Oracle) (st : Store) :
    acceptImport tn uh [] cols d q sp o st = (st, ImportResult.emptyInput, []) :=
  rfl

theorem resolveTarget_no_table_match (tn : String) (cols : Nat) (u : Bool) :
    ∀ objs : List DBObject, (∀ ob ∈ objs, ob.name = tn → ob.otype ≠ "table") →
      resolveTarget tn cols u objs = ResolveDecision.createNew := by
  intro objs
  induction objs with
  | nil => intro _; rfl
  | cons ob rest ih =>
    intro h
    have hob : ¬ (ob.otype == "table" && ob.name == tn) = true := by
      intro hcontra
      rw [Bool.and_eq_true, beq_iff_eq, beq_iff_eq] at hcontra
      exact h ob (List.mem_cons_self _ _) hcontra.2 hcontra.1
    simp only [resolveTarget, hob, if_false]
    exact ih (fun p hp hn => h p (List.mem_cons_of_mem _ hp) hn)

/-- C10: only objects of type exactly "table" participate in the name match
(line 167). If every object bearing the desired name is a non-table (view,
index, ...), the resolution is CreateNew and — once the savepoint opens — a
create-table request for the derived fields is issued. -/
theorem non_table_name_create_new (tn : String) (uh : Bool) (rows : List (List String))
    (cols : Nat) (d q : Char) (sp : String) (o : Oracle) (st : Store)
    (hobjs : ∀ ob ∈ st.objects, ob.name = tn → ob.otype ≠ "table")
    (hne : ¬ rows.length = 0) (hsp : o.savepointOk = true) :
    resolveTarget tn cols o.userConfirms st.objects = ResolveDecision.createNew
    ∧ Event.createTable tn (deriveFields uh (rows.headD []) cols)
        ∈ (acceptImport tn uh rows cols d q sp o st).2.2 := by
  have hdecv := resolveTarget_no_table_match tn cols o.userConfirms st.objects hobjs
  refine ⟨hdecv, ?_⟩
  by_cases hct : o.createOk = true
  · rw [acceptImport_createNew_reduce tn uh rows cols d q sp o st hne hdecv hsp hct]
    simp
  · simp [acceptImport, hne, hdecv, afterResolve, hsp, hct, rollbackRun,
      ResolveDecision.isAppend]

/-- Witness for `non_table_name_create_new`: a view named "t" exists; the
run still creates a table "t". -/
theorem non_table_name_create_new_witness :
    resolveTarget "t" 1 true [⟨"view", "t", [], []⟩] = ResolveDecision.createNew
    ∧ Event.createTable "t" (deriveFields false ([["a"]].headD []) 1)
        ∈ (acceptImport "t" false [["a"]] 1 'a' 'b' "sp"
            ⟨true, "", true, "", fun _ => true, fun _ => "", fun _ => false, true⟩
            ⟨[⟨"view", "t", [], []⟩], [], "E"⟩).2.2 :=
  non_table_name_create_new "t" false [["a"]] 1 'a' 'b' "sp"
    ⟨true, "", true, "", fun _ => true, fun _ => "", fun _ => false, true⟩
    ⟨[⟨"view", "t", [], []⟩], [], "E"⟩ (by decide) (by decide) rfl

/-- C5 counterexample: the claim says a column-count mismatch fails carrying
both counts. In the code the mismatch branch (lines 171-173) shows one fixed
warning text and returns; the outcome for an existing 3-column table against
4 incoming columns is identical to the outcome for an existing 2-column
table against 5 incoming columns, so the failure carries neither count. -/
theorem mismatch_outcome_carries_no_counts :
    resolveTarget "t" 4 true [⟨"table", "t", [⟨"a", ""⟩, ⟨"b", ""⟩, ⟨"c", ""⟩], []⟩]
      = ResolveDecision.mismatchAbort mismatchMsg
    ∧ resolveTarget "t" 5 true [⟨"table", "t", [⟨"a", ""⟩, ⟨"b", ""⟩], []⟩]
      = ResolveDecision.mismatchAbort mismatchMsg
    ∧ resolveTarget "t" 4 true [⟨"table", "t", [⟨"a", ""⟩, ⟨"b", ""⟩, ⟨"c", ""⟩], []⟩]
      = resolveTarget "t" 5 true [⟨"table", "t", [⟨"a", ""⟩, ⟨"b", ""⟩], []⟩] := by
  decide

/-- C5 (amended): target resolution performs an exact, case-sensitive name
match restricted to objects of type "table": the decision equals a first-match
scan; no match resolves to CreateNew, a match with equal column count follows
the user's confirmation (AppendExisting on yes), and a match with a different
column count aborts with the fixed mismatch message — which carries neither
count — while the store is left unchanged and only the read of the existing
objects was issued. -/
theorem resolve_decision_characterization (tn : String) (cols : Nat) :
    (∀ (u : Bool) (objs : List DBObject),
      resolveTarget tn cols u objs =
        (match objs.find? (fun ob => ob.otype == "table" && ob.name == tn) with
         | none => ResolveDecision.createNew
         | some ob =>
           if ob.tableFields.length ≠ cols then ResolveDecision.mismatchAbort mismatchMsg
           else if u then ResolveDecision.appendExisting else ResolveDecision.userDeclined))
    ∧ (∀ (uh : Bool) (rows : List (List String)) (d q : Char) (sp : String)
        (o : Oracle) (st : Store) (m : String),
        ¬ rows.length = 0 →
        resolveTarget tn cols o.userConfirms st.objects = ResolveDecision.mismatchAbort m →
        acceptImport tn uh rows cols d q sp o st
          = (st, ImportResult.mismatchAbort m, [Event.getBrowsableObjects])) := by
  constructor
  · intro u objs
    induction objs with
    | nil => rfl
    | cons ob rest ih =>
      by_cases hp : (ob.otype == "table" && ob.name == tn) = true
      · simp [resolveTarget, hp, List.find?]
      · simp [resolveTarget, hp, List.find?, ih]
  · intro uh rows d q sp o st m hne hres
    simp [acceptImport, hne, hres]

/-- Witness for `resolve_decision_characterization`: a mismatching existing
table aborts the import with the fixed message and an unchanged store. -/
theorem resolve_decision_characterization_witness :
    acceptImport "t" false [["a"], ["b"]] 1 'a' 'b' "sp"
        ⟨true, "", true, "", fun _ => true, fun _ => "", fun _ => false, true⟩
        ⟨[⟨"table", "t", [⟨"x", ""⟩, ⟨"y", ""⟩], []⟩], [], "E"⟩
      = (⟨[⟨"table", "t", [⟨"x", ""⟩, ⟨"y", ""⟩], []⟩], [], "E"⟩,
         ImportResult.mismatchAbort mismatchMsg, [Event.getBrowsableObjects]) :=
  (resolve_decision_characterization "t" 1).2 false [["a"], ["b"]] 'a' 'b' "sp"
    ⟨true, "", true, "", fun _ => true, fun _ => "", fun _ => false, true⟩
    ⟨[⟨"table", "t", [⟨"x", ""⟩, ⟨"y", ""⟩], []⟩], [], "E"⟩ mismatchMsg
    (by decide) (by decide)

/-- C6 counterexample: the claim says an import whose delimiter equals its
quote character is rejected as a precondition error before any store access.
Neither `checkInput` (lines 291-298, which validates only the table name) nor
`accept` inspects the dialect: with delimiter = quote = comma and a valid
name, the OK button is enabled, the run reads the store's objects, opens the
savepoint and completes the import. -/
theorem delimiter_equals_quote_not_rejected :
    checkInput "t" = true
    ∧ (acceptImport "t" false [["a"]] 1 (Char.ofNat 44) (Char.ofNat 44) "sp"
        ⟨true, "", true, "", fun _ => true, fun _ => "", fun _ => false, true⟩
        ⟨[], [], "E"⟩).2.1 = ImportResult.accepted
    ∧ Event.getBrowsableObjects ∈ (acceptImport "t" false [["a"]] 1
        (Char.ofNat 44) (Char.ofNat 44) "sp"
        ⟨true, "", true, "", fun _ => true, fun _ => "", fun _ => false, true⟩
        ⟨[], [], "E"⟩).2.2
    ∧ Event.setRestorePoint "sp" ∈ (acceptImport "t" false [["a"]] 1
        (Char.ofNat 44) (Char.ofNat 44) "sp"
        ⟨true, "", true, "", fun _ => true, fun _ => "", fun _ => false, true⟩
        ⟨[], [], "E"⟩).2.2 := by
  refine ⟨rfl, rfl, by decide, by decide⟩

/-- C6 (amended): no delimiter/quote precondition exists. The import behaves
identically for every pair of dialect characters — in particular when the
delimiter equals the quote — and the only precondition enforced beforehand
is `checkInput`'s table-name check: non-empty and free of backticks. -/
theorem no_dialect_precondition (tn : String) (uh : Bool) (rows : List (List String))
    (cols : Nat) (sp : String) (o : Oracle) (st : Store) :
    (∀ d q d' q' : Char,
      acceptImport tn uh rows cols d q sp o st = acceptImport tn uh rows cols d' q' sp o st)
    ∧ (checkInput tn = true ↔ ¬ tn = "" ∧ ¬ backtickC ∈ tn.toList) := by
  constructor
  · intro d q d' q'
    rfl
  · have h1 : tn.isEmpty = false ↔ ¬ tn = "" := by
      constructor
      · intro h he
        rw [he] at h
        exact absurd h (by decide)
      · intro h
        cases hb : tn.isEmpty with
        | false => rfl
        | true => exact absurd ((String.isEmpty_iff tn).mp hb) h
    have h2 : tn.toList.contains backtickC = false ↔ ¬ backtickC ∈ tn.toList := by
      constructor
      · intro h hm
        have ht : tn.toList.contains backtickC = true := List.elem_iff.mpr hm
        rw [ht] at h
        exact absurd h (by decide)
      · intro hm
        cases hb : tn.toList.contains backtickC with
        | false => rfl
        | true => exact absurd (List.elem_iff.mp hb) hm
    rw [checkInput, Bool.not_eq_true', Bool.or_eq_false_iff, h1, h2]

/-- Witness for `no_dialect_precondition`: the run with delimiter = quote
equals the run with a distinct delimiter and quote, and the valid name "t"
passes the name check. -/
theorem no_dialect_precondition_witness :
    (acceptImport "t" false [["a"]] 1 (Char.ofNat 44) (Char.ofNat 44) "sp"
        ⟨true, "", true, "", fun _ => true, fun _ => "", fun _ => false, true⟩
        ⟨[], [], "E"⟩
      = acceptImport "t" false [["a"]] 1 (Char.ofNat 44) (Char.ofNat 34) "sp"
        ⟨true, "", true, "", fun _ => true, fun _ => "", fun _ => false, true⟩
        ⟨[], [], "E"⟩)
    ∧ (checkInput "t" = true ↔ ¬ "t" = "" ∧ ¬ backtickC ∈ "t".toList) :=
  ⟨(no_dialect_precondition "t" false [["a"]] 1 "sp"
      ⟨true, "", true, "", fun _ => true, fun _ => "", fun _ => false, true⟩
      ⟨[], [], "E"⟩).1 (Char.ofNat 44) (Char.ofNat 44) (Char.ofNat 44) (Char.ofNat 34),
   (no_dialect_precondition "t" false [["a"]] 1 "sp"
      ⟨true, "", true, "", fun _ => true, fun _ => "", fun _ => false, true⟩
      ⟨[], [], "E"⟩).2⟩
